import Mathlib

/-!
Shallow embedding of the mask-authoring core of the AI-Image-Inpainting
application (src/components/ImageEditor.tsx) and its orchestrator
(src/App.tsx), together with theorems settling the frozen claims about the
natural-language specification.

Modelling conventions, following the HTML canvas 2D specification:
* A canvas pixel is a premultiplied pair (p, a) of gray intensity and alpha,
  taken in ℚ for exactness (the 8-bit quantization the browser applies does
  not affect any claim settled here: a value that is not exactly 0 or 1 in ℚ
  is not 0 or 255 after quantization either, for the values arising below).
  All strokes are drawn in white, so a single gray channel suffices.
* Porter-Duff compositing: `source-over` and `destination-out` are the exact
  operator definitions used by `CanvasRenderingContext2D.drawImage` under the
  corresponding `globalCompositeOperation` values.
* Assigning `strokeStyle` / `fillStyle` / `globalCompositeOperation` on a
  context changes only the attribute record of that context; it never alters
  pixels already in the bitmap.  This is the load-bearing canvas fact behind
  the mask-export analysis: the attribute assignments on `drawingCtx` inside
  `getMaskAsBase64` do not recolor the existing strokes.
* Brush rasterization covers a pixel when the center of the pixel lies in the
  stamped disk or round-capped segment; the antialiasing of the browser gives
  boundary pixels fractional coverage instead, but no claim below depends on
  the boundary pixels, only on interior (full coverage) and untouched (zero
  coverage) pixels.
* `canvas.toDataURL("image/png")` is modelled as the constant prefix
  "data:image/png;base64," followed by a deterministic serialization of the
  pixel grid.  The claims use only that the payload is a deterministic
  function of the pixels and that the prefix is always present.
* Setting `canvas.width`/`canvas.height` (done in the image-load effect)
  resets the bitmap to fully transparent, per the canvas specification.
-/

namespace Inpaint

/-- A canvas pixel: premultiplied gray intensity `p` and alpha `a`. -/
structure Pixel where
  p : ℚ
  a : ℚ
deriving DecidableEq

/-- The fully transparent pixel (initial content of the drawing canvas). -/
def transparent : Pixel := ⟨0, 0⟩

/-- Opaque black, premultiplied. -/
def opaqueBlack : Pixel := ⟨0, 1⟩

/-- Opaque white, premultiplied. -/
def opaqueWhite : Pixel := ⟨1, 1⟩

/-- Porter-Duff `source-over` on premultiplied pixels. -/
def srcOver (dst src : Pixel) : Pixel :=
  ⟨src.p + dst.p * (1 - src.a), src.a + dst.a * (1 - src.a)⟩

/-- Porter-Duff `destination-out` on premultiplied pixels. -/
def destOut (dst src : Pixel) : Pixel :=
  ⟨dst.p * (1 - src.a), dst.a * (1 - src.a)⟩

/-- The attribute record of a 2D canvas context, restricted to the
attributes the component reads or writes. -/
structure Ctx2D where
  gco : String
  strokeStyle : String
  fillStyle : String
  lineWidth : ℚ
  lineCap : String
  lineJoin : String
deriving DecidableEq

/-- A rasterization command emitted by `drawOnCanvas`: a round-capped,
round-joined line segment of a given width (`ctx.stroke` of a two-point
path), or a filled disk (`ctx.arc` + `ctx.fill`). -/
inductive DrawCmd where
  | seg (p q : ℚ × ℚ) (w : ℚ)
  | dot (c : ℚ × ℚ) (r : ℚ)
deriving DecidableEq

/-- The current point of a command: the end point of the segment, or the center
of the disk.  Both are the scaled coordinates of the pointer event that emitted
the command. -/
def cmdCurrent : DrawCmd → ℚ × ℚ
  | .seg _ q _ => q
  | .dot c _ => c

/-- Whether a command is a connecting line segment. -/
def isSeg : DrawCmd → Bool
  | .seg _ _ _ => true
  | .dot _ _ => false

/-- Squaring, used for distance comparisons without square roots. -/
def sq (q : ℚ) : ℚ := q * q

/-- Squared euclidean distance between two points. -/
def dist2 (x y : ℚ × ℚ) : ℚ := sq (x.1 - y.1) + sq (x.2 - y.2)

/-- Squared distance from point `x` to the segment `[a, b]` (projection
parameter clamped to `[0, 1]`; for `a = b` this degenerates to the distance
to `a`, matching a round-capped zero-length stroke). -/
def segDist2 (a b x : ℚ × ℚ) : ℚ :=
  let d1 := b.1 - a.1
  let d2 := b.2 - a.2
  let len2 := sq d1 + sq d2
  let t0 := ((x.1 - a.1) * d1 + (x.2 - a.2) * d2) / len2
  let t := max 0 (min 1 t0)
  dist2 x (a.1 + t * d1, a.2 + t * d2)

/-- Whether the point `(x, y)` lies in the area stamped by a command. -/
def covered (c : DrawCmd) (x y : ℚ) : Bool :=
  match c with
  | .dot ctr r => decide (dist2 (x, y) ctr ≤ sq r)
  | .seg p q w => decide (segDist2 p q (x, y) ≤ sq (w / 2))

/-- One brush composite onto a destination pixel: the strokes are drawn with
`strokeStyle`/`fillStyle` = `rgba(255, 255, 255, 0.7)` under the default
`source-over` operation, i.e. premultiplied white at alpha 7/10. -/
def stampPixel (dst : Pixel) : Pixel := srcOver dst ⟨7/10, 7/10⟩

/-- Rasterize a command list onto a layer.  `ctx.stroke` and `ctx.fill` each
composite once, so a pixel covered by both the segment and the disk of one
`drawOnCanvas` call is composited twice, exactly as in the browser.
Coverage is sampled at the pixel center `(i + 1/2, j + 1/2)`. -/
def rasterize (layer : Nat → Nat → Pixel) (cmds : List DrawCmd) : Nat → Nat → Pixel :=
  fun i j =>
    cmds.foldl
      (fun px c => if covered c ((i : ℚ) + 1/2) ((j : ℚ) + 1/2) then stampPixel px else px)
      (layer i j)

/-- The state of the `ImageEditor` component: the drawing canvas (the Stroke
Layer) with its pixel buffer dimensions and 2D context, and the React
refs/state `lastPointRef`, `isDrawing`, `brushSize`.  `hasCanvas` models
whether `drawingCanvasRef.current` is non-null. -/
structure EditorState where
  width : Nat
  height : Nat
  layer : Nat → Nat → Pixel
  ctx : Ctx2D
  lastPoint : Option (ℚ × ℚ)
  isDrawing : Bool
  brushSize : ℚ
  hasCanvas : Bool

/-- Default 2D context attributes of a fresh canvas. -/
def initCtx : Ctx2D :=
  { gco := "source-over"
    strokeStyle := "#000000"
    fillStyle := "#000000"
    lineWidth := 1
    lineCap := "butt"
    lineJoin := "miter" }

/-- Initial state of the component: a fresh (default 300×150) canvas,
`lastPointRef.current = null`, `isDrawing = false`, `useState(40)` for the
brush size. -/
def initState : EditorState :=
  { width := 300
    height := 150
    layer := fun _ _ => transparent
    ctx := initCtx
    lastPoint := none
    isDrawing := false
    brushSize := 40
    hasCanvas := true }

/-- Model of `drawOnCanvas` (ImageEditor.tsx lines 23-61): converts the display-space
event point `(dx, dy)` to buffer space with `scaleX = canvas.width /
rect.width`, `scaleY = canvas.height / rect.height` (both the mouse and the
touch branch multiply by the same scale factors), sets the stroke/fill
style, line width, caps and joins, draws a connecting segment when a last
point exists, always stamps a disk of radius `brushSize / 2` at the current
point, and records the current point as the new last point.  Returns the
new state together with the emitted rasterization commands. -/
def drawOnCanvas (s : EditorState) (dx dy wd hd : ℚ) : EditorState × List DrawCmd :=
  if s.hasCanvas then
    let scaleX : ℚ := (s.width : ℚ) / wd
    let scaleY : ℚ := (s.height : ℚ) / hd
    let cx := dx * scaleX
    let cy := dy * scaleY
    let ctx2 : Ctx2D :=
      { s.ctx with
        strokeStyle := "rgba(255, 255, 255, 0.7)"
        fillStyle := "rgba(255, 255, 255, 0.7)"
        lineWidth := s.brushSize
        lineCap := "round"
        lineJoin := "round" }
    let cmds : List DrawCmd :=
      (match s.lastPoint with
       | some lp => [DrawCmd.seg lp (cx, cy) s.brushSize]
       | none => []) ++ [DrawCmd.dot (cx, cy) (s.brushSize / 2)]
    ({ s with ctx := ctx2, layer := rasterize s.layer cmds, lastPoint := some (cx, cy) }, cmds)
  else (s, [])

/-- Model of `startDrawing` (lines 63-67): sets `isDrawing`, resets the last point to
`null`, then calls `drawOnCanvas`. -/
def startDrawing (s : EditorState) (dx dy wd hd : ℚ) : EditorState × List DrawCmd :=
  drawOnCanvas { s with isDrawing := true, lastPoint := none } dx dy wd hd

/-- Model of `stopDrawing` (lines 69-72): clears `isDrawing` and the last point. -/
def stopDrawing (s : EditorState) : EditorState :=
  { s with isDrawing := false, lastPoint := none }

/-- Model of `handleDrawing` (lines 74-77): draws only while a stroke is active. -/
def handleDrawing (s : EditorState) (dx dy wd hd : ℚ) : EditorState × List DrawCmd :=
  if s.isDrawing then drawOnCanvas s dx dy wd hd else (s, [])

/-- The image-load effect (lines 79-96): on decode success the canvases are
resized to the natural dimensions of the image, which per the canvas
specification resets the drawing bitmap to fully transparent. -/
def loadImage (w h : Nat) (s : EditorState) : EditorState :=
  if s.hasCanvas then
    { s with width := w, height := h, layer := fun _ _ => transparent }
  else s

/-- Model of `clearMask` (lines 98-106): `clearRect` over the whole canvas resets the
Stroke Layer to fully transparent. -/
def clearMask (s : EditorState) : EditorState :=
  if s.hasCanvas then { s with layer := fun _ _ => transparent } else s

/-- The brush-size control (lines 170-178): an `<input type="range" min="5"
max="150">`.  The HTML range control sanitizes its value by clamping to
`[min, max]`, and `onChange` stores `parseInt(e.target.value)` via
`setBrushSize`. -/
def sliderClamp (v : Int) : Int :=
  if v < 5 then 5 else if 150 < v then 150 else v

/-- Store a requested brush-size value through the range control. -/
def setBrushSize (v : Int) (s : EditorState) : EditorState :=
  { s with brushSize := (sliderClamp v : ℚ) }

/-- Derivation of one mask pixel from one Stroke Layer pixel `sp`, following
`getMaskAsBase64` (lines 109-147): the mask canvas is filled opaque black;
`drawImage(drawingCanvas)` under `destination-out` punches the strokes out;
then, back under `source-over`, `drawImage(drawingCanvas)` draws the Stroke
Layer content again.  The attribute assignments on `drawingCtx`
(`source-atop`, white stroke/fill) change only the attributes of that context and
never the drawing bitmap, so both `drawImage` calls read the same pixels. -/
def maskPixel (sp : Pixel) : Pixel :=
  srcOver (destOut opaqueBlack sp) sp

/-- The mask canvas pixel grid in row-major order (the mask canvas has the
dimensions of the drawing canvas). -/
def maskGrid (s : EditorState) : List Pixel :=
  ((List.range s.height).map
    (fun j => (List.range s.width).map (fun i => maskPixel (s.layer i j)))).flatten

/-- Deterministic serialization of one pixel, standing in for its PNG
encoding. -/
def encodePixel (px : Pixel) : String :=
  toString px.p.num ++ "/" ++ toString px.p.den ++ "," ++
    toString px.a.num ++ "/" ++ toString px.a.den ++ ";"

/-- The constant data-URL prefix produced by `toDataURL("image/png")` and
tested for by `handleGenerate`. -/
def pngHead : String := "data:image/png;base64,"

/-- Model of `maskCanvas.toDataURL("image/png")`: the PNG data-URL prefix
followed by a deterministic serialization of the pixel grid. -/
def pngDataUrl (pxs : List Pixel) : String :=
  pngHead ++ String.join (pxs.map encodePixel)

/-- Model of `getMaskAsBase64` (lines 109-147): returns `""` when the drawing canvas
ref is null; otherwise derives the mask grid and its data URL.  The drawing
attributes `gco`, `strokeStyle` and `fillStyle` of the drawing context are
saved, overwritten with `"source-atop"` / `"white"` / `"white"`, and
restored afterwards; this transient mutation is threaded through the
returned state. -/
def getMaskAsBase64 (s : EditorState) : String × EditorState :=
  if s.hasCanvas then
    let originalCompositeOp := s.ctx.gco
    let originalStroke := s.ctx.strokeStyle
    let originalFill := s.ctx.fillStyle
    let s1 : EditorState :=
      { s with ctx := { s.ctx with
                        gco := "source-atop"
                        strokeStyle := "white"
                        fillStyle := "white" } }
    let url := pngDataUrl (maskGrid s1)
    let s2 : EditorState :=
      { s1 with ctx := { s1.ctx with
                         gco := originalCompositeOp
                         strokeStyle := originalStroke
                         fillStyle := originalFill } }
    (url, s2)
  else ("", s)

/-- Whether the Stroke Layer has zero painted pixels (every buffer pixel has
zero alpha coverage). -/
def maskEmpty (s : EditorState) : Bool :=
  (List.range s.height).all
    (fun j => (List.range s.width).all (fun i => decide ((s.layer i j).a = 0)))

/-- The editor operations invocable after load (in the terms of the spec: `beginStroke`,
`extendStroke`, `endStroke`, `clearMask`, `exportMask`, `setBrushSize`). -/
inductive EOp where
  | start (dx dy wd hd : ℚ)
  | move (dx dy wd hd : ℚ)
  | stop
  | clear
  | exportMask
  | setBrush (v : Int)

/-- Apply one editor operation to the editor state. -/
def applyOp : EOp → EditorState → EditorState
  | .start dx dy wd hd, s => (startDrawing s dx dy wd hd).1
  | .move dx dy wd hd, s => (handleDrawing s dx dy wd hd).1
  | .stop, s => stopDrawing s
  | .clear, s => clearMask s
  | .exportMask, s => (getMaskAsBase64 s).2
  | .setBrush v, s => setBrushSize v s

/-- Apply a sequence of editor operations (a stroke history). -/
def applyOps (ops : List EOp) (s : EditorState) : EditorState :=
  ops.foldl (fun t op => applyOp op t) s

/-- The four-phase UI state of the application plus the error phase
(src/App.tsx, `AppState`). -/
inductive AppPhase where
  | UPLOADING
  | EDITING
  | GENERATING
  | DISPLAYING_RESULT
  | ERROR
deriving DecidableEq

/-- An uploaded file: its declared MIME type (`file.type`) and whether its
bytes actually decode as a raster image.  `handleImageUpload` reads only the
MIME type; decodability is the ground truth that the `DecodeError` of the spec talks
about. -/
structure FileModel where
  mimeType : String
  decodable : Bool
deriving DecidableEq

/-- The state owned by the `App` component (src/App.tsx lines 10-14). -/
structure AppModel where
  appState : AppPhase
  originalImage : Option FileModel
  editedImageUrl : Option String
  prompt : String
  error : Option String
deriving DecidableEq

/-- Error message for a blank prompt (App.tsx line 56). -/
def emptyPromptMsg : String := "Please enter a description of the edit you want to make."

/-- Error message for an empty mask (App.tsx line 67). -/
def emptyMaskMsg : String := "Please select an area on the image to edit by drawing on it."

/-- Error message for an invalid upload (App.tsx line 26). -/
def invalidFileMsg : String := "Please upload a valid image file (PNG, JPG, etc.)."

/-- JavaScript whitespace (the ASCII part of the WhiteSpace and
LineTerminator productions used by `String.prototype.trim`). -/
def isWs (c : Char) : Bool :=
  c == ' ' || c == '\t' || c == '\n' || c == '\r' || c == '\x0b' || c == '\x0c'

/-- JavaScript `String.prototype.trim`: drop leading and trailing
whitespace. -/
def jsTrim (s : List Char) : List Char :=
  ((s.dropWhile isWs).reverse.dropWhile isWs).reverse

/-- JavaScript `String.prototype.startsWith` on character lists. -/
def startsWithL : List Char → List Char → Bool
  | _, [] => true
  | [], _ :: _ => false
  | h :: hs, n :: ns => h == n && startsWithL hs ns

/-- JavaScript `String.prototype.includes` on character lists: some suffix
of the haystack starts with the needle. -/
def includesL (hay needle : List Char) : Bool :=
  match hay with
  | [] => startsWithL [] needle
  | c :: t => startsWithL (c :: t) needle || includesL t needle

/-- Model of `handleImageUpload` (App.tsx lines 19-28): accept the file when its
declared MIME type starts with "image/" (bytes are never inspected),
otherwise set the error message and change nothing else. -/
def handleImageUpload (m : AppModel) (f : FileModel) : AppModel :=
  if startsWithL f.mimeType.toList ("image/".toList) then
    { m with originalImage := some f, appState := AppPhase.EDITING, error := none }
  else
    { m with error := some invalidFileMsg }

/-- Model of `handleGenerate` (App.tsx lines 54-89), up to the point where the
external service `editImageWithMask` is invoked.  `ed` is the state of the
mounted image editor, `mounted` models `imageEditorRef.current` being
non-null.  The returned Bool records whether the external inpainting
service is invoked. -/
def handleGenerate (m : AppModel) (ed : EditorState) (mounted : Bool) : AppModel × Bool :=
  if (jsTrim m.prompt.toList).isEmpty then
    ({ m with error := some emptyPromptMsg }, false)
  else if m.originalImage.isNone || !mounted then
    (m, false)
  else
    let m1 : AppModel := { m with appState := AppPhase.GENERATING, error := none }
    let maskDataUrl := (getMaskAsBase64 ed).1
    if !(includesL maskDataUrl.toList pngHead.toList) then
      ({ m1 with error := some emptyMaskMsg, appState := AppPhase.EDITING }, false)
    else
      (m1, true)

/-- A freshly loaded 2×2 editing session with nothing painted (the Stroke
Layer has zero covered pixels). -/
def edEmpty : EditorState := clearMask (loadImage 2 2 initState)

/-- An app state mid-editing-session with a non-blank prompt and an
uploaded image. -/
def mGen : AppModel :=
  { appState := AppPhase.EDITING
    originalImage := some ⟨"image/png", true⟩
    editedImageUrl := none
    prompt := "make it red"
    error := none }

/-- An app state before any upload. -/
def mUp : AppModel :=
  { appState := AppPhase.UPLOADING
    originalImage := none
    editedImageUrl := none
    prompt := ""
    error := none }

/-- Exporting the mask restores the editor state completely: the drawing
context attributes are saved and written back, and no drawing operation
targets the drawing canvas. -/
theorem getMask_state (s : EditorState) : (getMaskAsBase64 s).2 = s := by
  unfold getMaskAsBase64
  split <;> rfl

/-- Every post-load editor operation preserves the buffer dimensions and
the canvas ref. -/
theorem applyOp_frame (op : EOp) (s : EditorState) :
    (applyOp op s).width = s.width ∧ (applyOp op s).height = s.height ∧
      (applyOp op s).hasCanvas = s.hasCanvas := by
  cases op with
  | start dx dy wd hd =>
    simp only [applyOp, startDrawing, drawOnCanvas]
    split <;> exact ⟨rfl, rfl, rfl⟩
  | move dx dy wd hd =>
    simp only [applyOp, handleDrawing, drawOnCanvas]
    split
    · split <;> exact ⟨rfl, rfl, rfl⟩
    · exact ⟨rfl, rfl, rfl⟩
  | stop => exact ⟨rfl, rfl, rfl⟩
  | clear =>
    simp only [applyOp, clearMask]
    split <;> exact ⟨rfl, rfl, rfl⟩
  | exportMask =>
    rw [applyOp, getMask_state]
    exact ⟨rfl, rfl, rfl⟩
  | setBrush v => exact ⟨rfl, rfl, rfl⟩

/-- A whole stroke history preserves the buffer dimensions and the canvas
ref. -/
theorem applyOps_frame (ops : List EOp) (s : EditorState) :
    (applyOps ops s).width = s.width ∧ (applyOps ops s).height = s.height ∧
      (applyOps ops s).hasCanvas = s.hasCanvas := by
  induction ops generalizing s with
  | nil => exact ⟨rfl, rfl, rfl⟩
  | cons op ops ih =>
    have h1 := applyOp_frame op s
    have h2 := ih (applyOp op s)
    exact ⟨h2.1.trans h1.1, h2.2.1.trans h1.2.1, h2.2.2.trans h1.2.2⟩

/-- An uncovered Stroke Layer pixel exports as opaque black. -/
theorem maskPixel_transparent : maskPixel transparent = opaqueBlack := by
  simp [maskPixel, destOut, srcOver, transparent, opaqueBlack]

/-- Mapping a constant over `List.range`. -/
theorem map_const_range {α : Type} (n : Nat) (b : α) :
    (List.range n).map (fun _ => b) = List.replicate n b := by
  simp [List.map_const']

/-- The mask grid of an editor whose Stroke Layer is fully transparent is
all opaque black, of the size of the buffer. -/
theorem maskGrid_const_transparent (t : EditorState)
    (h : t.layer = fun _ _ => transparent) :
    maskGrid t = List.replicate (t.height * t.width) opaqueBlack := by
  unfold maskGrid
  rw [h]
  simp only [maskPixel_transparent]
  rw [map_const_range, map_const_range, List.flatten_replicate_replicate]

/-- A list starts with any of its own prefixes. -/
theorem startsWithL_append (p r : List Char) : startsWithL (p ++ r) p = true := by
  induction p with
  | nil => cases r <;> rfl
  | cons c cs ih => simp [startsWithL, ih]

/-- Starting with the needle implies containing it. -/
theorem includesL_of_starts (hay needle : List Char)
    (h : startsWithL hay needle = true) : includesL hay needle = true := by
  cases hay with
  | nil => simpa [includesL] using h
  | cons c t => simp [includesL, h]

/-- Whenever the drawing canvas is mounted, the exported mask data URL
contains the PNG data-URL prefix - regardless of the Stroke Layer content,
painted or not. -/
theorem getMask_has_head (s : EditorState) (hc : s.hasCanvas = true) :
    includesL (getMaskAsBase64 s).1.toList pngHead.toList = true := by
  unfold getMaskAsBase64
  simp only [hc, if_true, pngDataUrl]
  exact includesL_of_starts _ _ (startsWithL_append _ _)

/-- When the drawing canvas is mounted, the exported data URL is the
serialization of the mask grid (the context save/restore does not affect
which pixels are read). -/
theorem getMask_url (s : EditorState) (hc : s.hasCanvas = true) :
    (getMaskAsBase64 s).1 = pngDataUrl (maskGrid s) := by
  unfold getMaskAsBase64
  rw [if_pos hc]
  rfl

/-- Dropping leading whitespace from an all-whitespace list empties it. -/
theorem dropWhile_ws_all (l : List Char) (h : l.all isWs = true) :
    l.dropWhile isWs = [] := by
  induction l with
  | nil => rfl
  | cons c t ih =>
    simp only [List.all_cons, Bool.and_eq_true] at h
    simp [List.dropWhile_cons, h.1, ih h.2]

/-- Trimming an all-whitespace string yields the empty string. -/
theorem jsTrim_all_ws (l : List Char) (h : l.all isWs = true) : jsTrim l = [] := by
  simp [jsTrim, dropWhile_ws_all l h]

/-- C1: the claim says the exported mask is strictly binary (non-zero Stroke
Layer alpha maps to exactly opaque white).  The code violates this: a pixel
painted once by the brush carries alpha 7/10 (the strokes are drawn in
`rgba(255, 255, 255, 0.7)`), and because assigning `strokeStyle`,
`fillStyle` and `globalCompositeOperation` on the drawing context does not
recolor its existing pixels, the second `drawImage` inside `getMaskAsBase64`
re-draws that 7/10-alpha content instead of solid white - contradicting the
comment in the code itself, "Re-draw with solid white color on the mask".  The export
of such a pixel is premultiplied (7/10, 79/100): a non-opaque gray, not
opaque white. -/
theorem c1_mask_export_not_binary :
    (startDrawing (loadImage 100 100 initState) 50 50 100 100).1.layer 50 50
        = stampPixel transparent ∧
    (stampPixel transparent).a ≠ 0 ∧
    maskPixel (stampPixel transparent) = ⟨7/10, 79/100⟩ ∧
    maskPixel (stampPixel transparent) ≠ opaqueWhite := by
  have h2 : stampPixel transparent = (⟨7/10, 7/10⟩ : Pixel) := by
    simp [stampPixel, srcOver, transparent]
  have h3 : maskPixel (stampPixel transparent) = (⟨7/10, 79/100⟩ : Pixel) := by
    rw [h2]
    simp only [maskPixel, destOut, srcOver, opaqueBlack, Pixel.mk.injEq]
    norm_num
  refine ⟨?_, ?_, h3, ?_⟩
  · simp only [startDrawing, loadImage, initState, drawOnCanvas, rasterize]
    norm_num
    simp only [rasterize, List.foldl_cons, List.foldl_nil]
    rw [if_pos]
    simp only [covered, decide_eq_true_eq]
    norm_num [dist2, sq]
  · rw [h2]
    norm_num
  · rw [h3]
    simp only [opaqueWhite, ne_eq, Pixel.mk.injEq]
    norm_num

/-- C2: for every prior stroke history, `clearMask` followed by
`getMaskAsBase64` yields the all-black mask of the W×H dimensions of the source
image; a zero-coverage export is not an error but this legitimate
all-black result. -/
theorem c2_clear_then_export_all_black (w h : Nat) (ops : List EOp) (s : EditorState)
    (hc : s.hasCanvas = true) :
    (clearMask (applyOps ops (loadImage w h s))).width = w ∧
    (clearMask (applyOps ops (loadImage w h s))).height = h ∧
    (getMaskAsBase64 (clearMask (applyOps ops (loadImage w h s)))).1 =
      pngDataUrl (List.replicate (w * h) opaqueBlack) := by
  have hload : loadImage w h s =
      { s with width := w, height := h, layer := fun _ _ => transparent } := by
    simp [loadImage, hc]
  have hf := applyOps_frame ops (loadImage w h s)
  have hw : (applyOps ops (loadImage w h s)).width = w := by rw [hf.1, hload]
  have hh : (applyOps ops (loadImage w h s)).height = h := by rw [hf.2.1, hload]
  have hcc : (applyOps ops (loadImage w h s)).hasCanvas = true := by
    rw [hf.2.2, hload]
    exact hc
  have hclear : clearMask (applyOps ops (loadImage w h s)) =
      { applyOps ops (loadImage w h s) with layer := fun _ _ => transparent } := by
    simp [clearMask, hcc]
  refine ⟨by rw [hclear]; exact hw, by rw [hclear]; exact hh, ?_⟩
  rw [hclear]
  have hcc2 : ({ applyOps ops (loadImage w h s) with
      layer := fun _ _ => transparent } : EditorState).hasCanvas = true := hcc
  rw [getMask_url _ hcc2, maskGrid_const_transparent _ rfl]
  have hsz : (applyOps ops (loadImage w h s)).height *
      (applyOps ops (loadImage w h s)).width = w * h := by
    rw [hw, hh, Nat.mul_comm]
  exact congrArg (fun n => pngDataUrl (List.replicate n opaqueBlack)) hsz

/-- C2 witness: a 2×3 load with an empty history. -/
theorem c2_clear_then_export_all_black_witness :
    (clearMask (applyOps [] (loadImage 2 3 initState))).width = 2 ∧
    (clearMask (applyOps [] (loadImage 2 3 initState))).height = 3 ∧
    (getMaskAsBase64 (clearMask (applyOps [] (loadImage 2 3 initState)))).1 =
      pngDataUrl (List.replicate (2 * 3) opaqueBlack) :=
  c2_clear_then_export_all_black 2 3 [] initState rfl

/-- C3: `startDrawing` resets the recorded last point to absent before
stamping, so the commands it emits never include a connecting line segment -
in particular none bridging from wherever a previous stroke ended, whatever
the prior state. -/
theorem c3_no_bridge_on_begin (s : EditorState) (dx dy wd hd : ℚ) :
    ((startDrawing s dx dy wd hd).2.all (fun c => !(isSeg c))) = true := by
  unfold startDrawing drawOnCanvas
  split
  · simp [isSeg]
  · rfl

/-- C4: every rasterization command emitted for a pointer event at
display-space point (dx, dy) is placed at the scaled buffer coordinates
(dx·Wb/Wd, dy·Hb/Hd) - the scale factors are applied on every coordinate
ingestion, never the raw display coordinates. -/
theorem c4_coordinate_scaling (s : EditorState) (dx dy wd hd : ℚ) :
    ((drawOnCanvas s dx dy wd hd).2.all
      (fun c => decide (cmdCurrent c =
        (dx * ((s.width : ℚ) / wd), dy * ((s.height : ℚ) / hd))))) = true := by
  unfold drawOnCanvas
  split
  · cases hl : s.lastPoint <;> simp [hl, cmdCurrent]
  · rfl

/-- C5: the brush-size ingestion path (the range control with min 5, max
150 feeding `setBrushSize`) clamps requested values into [5, 150] - values
below 5 become 5, values above 150 become 150, in-range values are kept -
and the default brush diameter is 40. -/
theorem c5_brush_size_clamped (v : Int) :
    (v < 5 → sliderClamp v = 5) ∧
    (150 < v → sliderClamp v = 150) ∧
    (5 ≤ v → v ≤ 150 → sliderClamp v = v) ∧
    initState.brushSize = 40 ∧
    ∀ s : EditorState, (setBrushSize v s).brushSize = (sliderClamp v : ℚ) := by
  refine ⟨fun h => ?_, fun h => ?_, fun h1 h2 => ?_, rfl, fun s => rfl⟩
  · simp [sliderClamp, h]
  · have h5 : ¬ v < 5 := by omega
    simp [sliderClamp, h5, h]
  · have h5 : ¬ v < 5 := by omega
    have h150 : ¬ 150 < v := by omega
    simp [sliderClamp, h5, h150]

/-- C5 witness: concrete clamps at 2, 999 and 42, and the default. -/
theorem c5_brush_size_clamped_witness :
    sliderClamp 2 = 5 ∧ sliderClamp 999 = 150 ∧ sliderClamp 42 = 42 ∧
      initState.brushSize = 40 :=
  ⟨(c5_brush_size_clamped 2).1 (by decide),
   (c5_brush_size_clamped 999).2.1 (by decide),
   (c5_brush_size_clamped 42).2.2.1 (by decide) (by decide),
   (c5_brush_size_clamped 0).2.2.2.1⟩

/-- C6: the claim says `handleGenerate` detects an empty (all-black) mask
and does not call the service.  The code violates this: its emptiness check
only tests whether the data URL contains "data:image/png;base64," - which
`toDataURL` produces for every mounted canvas, painted or not - so with a
zero-coverage Stroke Layer the check passes, no error is set, and the
external service is invoked, contradicting the comment in the code itself, "Check if
mask is empty". -/
theorem c6_empty_mask_reaches_service :
    maskEmpty edEmpty = true ∧
    (handleGenerate mGen edEmpty true).2 = true ∧
    (handleGenerate mGen edEmpty true).1.error = none ∧
    (handleGenerate mGen edEmpty true).1.appState = AppPhase.GENERATING := by
  have hm : maskEmpty edEmpty = true := by
    simp [maskEmpty, edEmpty, clearMask, loadImage, initState, transparent]
  have h3 : includesL (getMaskAsBase64 edEmpty).1.toList pngHead.toList = true :=
    getMask_has_head edEmpty rfl
  refine ⟨hm, ?_, ?_, ?_⟩ <;>
  · simp only [handleGenerate]
    rw [if_neg (by decide : ¬ ((jsTrim mGen.prompt.toList).isEmpty = true)),
      if_neg (by decide : ¬ ((mGen.originalImage.isNone || !true) = true)), h3,
      if_neg (by decide : ¬ ((!true) = true))]

/-- C7: calling `getMaskAsBase64` twice in a row with no intervening
operation returns identical encoded output both times. -/
theorem c7_export_idempotent (s : EditorState) :
    (getMaskAsBase64 ((getMaskAsBase64 s).2)).1 = (getMaskAsBase64 s).1 := by
  rw [getMask_state]

/-- C8: `getMaskAsBase64` never mutates the Stroke Layer: the state after a
call - every pixel, and the composite operation, stroke style and
fill style of the drawing context - equals the state before it; and the operations
outside the four stroke/clear ones (export, brush-size change) leave the
Stroke Layer pixels unchanged. -/
theorem c8_export_does_not_mutate (s : EditorState) (v : Int) :
    (getMaskAsBase64 s).2 = s ∧
    (applyOp EOp.exportMask s).layer = s.layer ∧
    (applyOp (EOp.setBrush v) s).layer = s.layer :=
  ⟨getMask_state s, congrArg EditorState.layer (getMask_state s), rfl⟩

/-- C9 counterexample: the claim says `loadSource` fails with a decode error
exactly when the bytes are not a valid raster image.  The code only checks
the declared MIME type: a file declared "image/png" whose bytes are not
decodable is accepted - no error, the session state is replaced. -/
theorem c9_counterexample_upload :
    (handleImageUpload mUp ⟨"image/png", false⟩).error = none ∧
    (FileModel.mk "image/png" false).decodable = false ∧
    (handleImageUpload mUp ⟨"image/png", false⟩).originalImage =
      some ⟨"image/png", false⟩ ∧
    (handleImageUpload mUp ⟨"image/png", false⟩).appState = AppPhase.EDITING := by
  refine ⟨?_, rfl, ?_, ?_⟩ <;> decide

/-- C9 amended: `handleImageUpload` rejects exactly when the declared
MIME type does not start with "image/" (decodability of the bytes is never
checked); on rejection only the error message is set - the phase and any
image of any prior session remain unchanged - and on acceptance the file is
stored and the editing phase entered with the error cleared. -/
theorem c9_upload_mime_gate (m : AppModel) (f : FileModel) :
    (startsWithL f.mimeType.toList ("image/".toList) = false →
      handleImageUpload m f = { m with error := some invalidFileMsg }) ∧
    (startsWithL f.mimeType.toList ("image/".toList) = true →
      handleImageUpload m f =
        { m with originalImage := some f, appState := AppPhase.EDITING, error := none }) := by
  constructor <;> intro h <;>
  · unfold handleImageUpload
    rw [h]
    simp

/-- C9 witness: a rejected text file leaves everything but the error
unchanged. -/
theorem c9_upload_mime_gate_witness :
    handleImageUpload mUp ⟨"text/plain", true⟩ = { mUp with error := some invalidFileMsg } :=
  (c9_upload_mime_gate mUp ⟨"text/plain", true⟩).1 (by decide)

/-- C10: for every prompt consisting only of whitespace (or empty),
`handleGenerate` sets the user-facing error message and returns without
invoking the external service and without moving the application phase away
from its current value. -/
theorem c10_blank_prompt_rejected (m : AppModel) (ed : EditorState) (mounted : Bool)
    (hw : m.prompt.toList.all isWs = true) :
    handleGenerate m ed mounted = ({ m with error := some emptyPromptMsg }, false) ∧
    (handleGenerate m ed mounted).1.appState = m.appState := by
  have h1 : (jsTrim m.prompt.toList).isEmpty = true := by
    rw [jsTrim_all_ws _ hw]
    rfl
  constructor
  · unfold handleGenerate
    rw [if_pos h1]
  · unfold handleGenerate
    rw [if_pos h1]

/-- C10 witness: a two-space prompt. -/
theorem c10_blank_prompt_rejected_witness :
    handleGenerate { mUp with prompt := "  " } initState true =
      ({ mUp with prompt := "  ", error := some emptyPromptMsg }, false) :=
  (c10_blank_prompt_rejected { mUp with prompt := "  " } initState true (by decide)).1

end Inpaint
